import Mathlib

/-!
# Verification of the WebSocket authentication proxy (`src/backend/proxy.py`)

This file gives a shallow embedding of the proxy program and proves the
frozen claims about it.  The program consists of three coroutines:

* `proxy_task` — forwards messages from one WebSocket to another, decoding
  each message as JSON and re-encoding it before sending;
* `create_proxy` — opens the upstream connection (with bearer-token
  headers) inside an `async with` block and runs two `proxy_task`
  instances, joined with `asyncio.gather`;
* `handle_client` — waits (with a 5 s timeout) for the first client
  message, parses it as JSON, tests `"bearer_token" in auth_data`, and
  either starts `create_proxy` or closes the client connection with a
  close code.

External library behaviour (the `json` module, Python's `in`/`[]`
operators and `str()` conversion on decoded JSON values) is modelled by
concrete executable Lean functions.  The JSON codec model normalizes
separators (the model prints without the spaces Python inserts after
`,` and `:`), models numbers as integers, and supports only the
`\"`/`\\` string escapes — simplifications of the `json` library that do
not affect the structural (decode-level) properties at issue.
-/

/-- Decoded JSON documents, the result type of the modelled `json.loads`.
JSON numbers are modelled as integers. -/
inductive JValue where
  | jnull : JValue
  | jbool : Bool → JValue
  | jnum : Int → JValue
  | jstr : String → JValue
  | jarr : List JValue → JValue
  | jobj : List (String × JValue) → JValue

/-- The opening-brace character, written via its code point. -/
def lbraceC : Char := Char.ofNat 123

/-- The closing-brace character, written via its code point. -/
def rbraceC : Char := Char.ofNat 125

/-- The single-quote character, written via its code point. -/
def squoteC : Char := Char.ofNat 39

/-- Decimal digits of `n`, least significant first, with fuel. -/
def natToCharsRev : Nat → Nat → List Char
  | 0, _ => []
  | f + 1, n => if n = 0 then [] else Char.ofNat (48 + n % 10) :: natToCharsRev f (n / 10)

/-- Decimal rendering of a natural number (most significant digit first). -/
def natToChars (n : Nat) : List Char :=
  if n = 0 then ['0'] else (natToCharsRev (n + 1) n).reverse

/-- Decimal rendering of an integer, as Python's `json.dumps` prints it. -/
def intToChars (i : Int) : List Char :=
  if i < 0 then '-' :: natToChars i.natAbs else natToChars i.toNat

/-- JSON string escaping for one character (model: escape `"` and `\`). -/
def escChar (c : Char) : List Char :=
  if c = '"' then ['\\', '"'] else if c = '\\' then ['\\', '\\'] else [c]

/-- JSON string escaping over a character list. -/
def escChars : List Char → List Char
  | [] => []
  | c :: cs => escChar c ++ escChars cs

mutual

/-- Model of `json.dumps` (compact separators), producing a character list. -/
def dumpChars : JValue → List Char
  | .jnull => ['n', 'u', 'l', 'l']
  | .jbool true => ['t', 'r', 'u', 'e']
  | .jbool false => ['f', 'a', 'l', 's', 'e']
  | .jnum i => intToChars i
  | .jstr s => '"' :: (escChars s.data ++ ['"'])
  | .jarr [] => ['[', ']']
  | .jarr (x :: xs) => '[' :: (dumpChars x ++ dumpTail xs ++ [']'])
  | .jobj [] => [lbraceC, rbraceC]
  | .jobj (kv :: fs) => lbraceC :: (dumpMember kv ++ dumpMembersTail fs ++ [rbraceC])

/-- Comma-separated continuation of a JSON array body. -/
def dumpTail : List JValue → List Char
  | [] => []
  | x :: xs => ',' :: (dumpChars x ++ dumpTail xs)

/-- One `"key":value` member of a JSON object. -/
def dumpMember : String × JValue → List Char
  | (k, v) => '"' :: (escChars k.data ++ '"' :: ':' :: dumpChars v)

/-- Comma-separated continuation of a JSON object body. -/
def dumpMembersTail : List (String × JValue) → List Char
  | [] => []
  | kv :: fs => ',' :: (dumpMember kv ++ dumpMembersTail fs)

end

/-- Model of `json.dumps` at `String` type. -/
def json_dumps (v : JValue) : String := String.mk (dumpChars v)

/-- Parses a JSON string body (the opening quote already consumed). -/
def parseStringChars : List Char → Option (List Char × List Char)
  | [] => none
  | c :: rest =>
    if c = '"' then some ([], rest)
    else if c = '\\' then
      match rest with
      | [] => none
      | e :: r2 =>
        if e = '"' then (parseStringChars r2).map (fun p => ('"' :: p.1, p.2))
        else if e = '\\' then (parseStringChars r2).map (fun p => ('\\' :: p.1, p.2))
        else none
    else (parseStringChars rest).map (fun p => (c :: p.1, p.2))

/-- Splits off the maximal leading run of decimal digits. -/
def takeDigits : List Char → List Char × List Char
  | [] => ([], [])
  | c :: rest =>
    if c.isDigit then
      let p := takeDigits rest
      (c :: p.1, p.2)
    else ([], c :: rest)

/-- Decimal value of a digit list (most significant digit first). -/
def digitsVal : List Char → Nat
  | [] => 0
  | c :: rest => digitsVal rest + (c.toNat - 48) * 10 ^ rest.length

/-- Parses a nonempty run of decimal digits as a natural number. -/
def parseNatNum (cs : List Char) : Option (Nat × List Char) :=
  let p := takeDigits cs
  if p.1.isEmpty then none else some (digitsVal p.1, p.2)

/-- Consumes an expected literal character sequence. -/
def dropLit : List Char → List Char → Option (List Char)
  | [], cs => some cs
  | _ :: _, [] => none
  | l :: ls, c :: cs => if c = l then dropLit ls cs else none

mutual

/-- Model of the `json.loads` grammar: one JSON value, with fuel.
The model does not skip whitespace (concrete inputs are whitespace-free). -/
def parseValue : Nat → List Char → Option (JValue × List Char)
  | 0, _ => none
  | _ + 1, [] => none
  | f + 1, c :: rest =>
    if c = '"' then (parseStringChars rest).map (fun p => (JValue.jstr (String.mk p.1), p.2))
    else if c = '[' then
      match rest with
      | [] => none
      | d :: r2 =>
        if d = ']' then some (JValue.jarr [], r2)
        else (parseElems f (d :: r2)).map (fun p => (JValue.jarr p.1, p.2))
    else if c = lbraceC then
      match rest with
      | [] => none
      | d :: r2 =>
        if d = rbraceC then some (JValue.jobj [], r2)
        else (parseMembers f (d :: r2)).map (fun p => (JValue.jobj p.1, p.2))
    else if c = 'n' then (dropLit ['u', 'l', 'l'] rest).map (fun r => (JValue.jnull, r))
    else if c = 't' then (dropLit ['r', 'u', 'e'] rest).map (fun r => (JValue.jbool true, r))
    else if c = 'f' then (dropLit ['a', 'l', 's', 'e'] rest).map (fun r => (JValue.jbool false, r))
    else if c = '-' then (parseNatNum rest).map (fun p => (JValue.jnum (-(p.1 : Int)), p.2))
    else if c.isDigit then (parseNatNum (c :: rest)).map (fun p => (JValue.jnum (p.1 : Int), p.2))
    else none

/-- Parses the nonempty body of a JSON array, consuming the closing `]`. -/
def parseElems : Nat → List Char → Option (List JValue × List Char)
  | 0, _ => none
  | f + 1, cs =>
    match parseValue f cs with
    | none => none
    | some (v, rest) =>
      match rest with
      | [] => none
      | c :: r2 =>
        if c = ',' then (parseElems f r2).map (fun p => (v :: p.1, p.2))
        else if c = ']' then some ([v], r2)
        else none

/-- Parses the nonempty body of a JSON object, consuming the closing brace. -/
def parseMembers : Nat → List Char → Option (List (String × JValue) × List Char)
  | 0, _ => none
  | _ + 1, [] => none
  | f + 1, c :: rest =>
    if c = '"' then
      match parseStringChars rest with
      | none => none
      | some (k, r1) =>
        match r1 with
        | [] => none
        | c1 :: r2 =>
          if c1 = ':' then
            match parseValue f r2 with
            | none => none
            | some (v, r3) =>
              match r3 with
              | [] => none
              | c2 :: r4 =>
                if c2 = ',' then
                  (parseMembers f r4).map (fun p => ((String.mk k, v) :: p.1, p.2))
                else if c2 = rbraceC then some ([(String.mk k, v)], r4)
                else none
          else none
    else none

end

/-- Model of `json.loads`: parse a whole string as one JSON document,
returning `none` where Python raises `json.JSONDecodeError`. -/
def json_loads (s : String) : Option JValue :=
  match parseValue (s.length + 1) s.data with
  | some (v, []) => some v
  | _ => none

/-! ## Models of the Python operators used on decoded JSON values -/

/-- Python exceptions distinguished by the proxy's `except` clauses. -/
inductive PyExc where
  | connectionClosed : PyExc
  | valueError : PyExc
  | typeError : PyExc
  | keyError : PyExc
  | otherError : PyExc
deriving DecidableEq

/-- Result of a Python expression: a value, or a raised exception. -/
inductive PyResult (α : Type) where
  | ok : α → PyResult α
  | exn : PyExc → PyResult α
deriving DecidableEq

/-- Whether `needle` starts the list `hay`. -/
def startsWithChars : List Char → List Char → Bool
  | [], _ => true
  | _ :: _, [] => false
  | n :: ns, h :: hs => n == h && startsWithChars ns hs

/-- Whether `needle` occurs contiguously inside the list. -/
def hasSubstr (needle : List Char) : List Char → Bool
  | [] => needle.isEmpty
  | c :: rest => startsWithChars needle (c :: rest) || hasSubstr needle rest

/-- Model of Python's membership test `key in x` on a value decoded by
`json.loads`: key lookup on a dict, element equality on a list, substring
test on a str, and a `TypeError` on the remaining (non-container) values. -/
def pyContains (key : String) : JValue → PyResult Bool
  | .jobj fields => .ok (fields.any fun kv => kv.1 == key)
  | .jarr xs => .ok (xs.any fun x => match x with | .jstr s => s == key | _ => false)
  | .jstr s => .ok (hasSubstr key.data s.data)
  | _ => .exn .typeError

/-- Value of the last binding of `key`, modelling that `json.loads` builds a
dict in which a repeated key keeps its last value. -/
def lookupLastKey (key : String) : List (String × JValue) → Option JValue
  | [] => none
  | kv :: rest =>
    match lookupLastKey key rest with
    | some v => some v
    | none => if kv.1 == key then some kv.2 else none

/-- Model of Python's subscript `x[key]` with a string key on a decoded JSON
value: dict lookup (`KeyError` when absent), `TypeError` otherwise. -/
def pySubscript (key : String) : JValue → PyResult JValue
  | .jobj fields =>
    match lookupLastKey key fields with
    | some v => .ok v
    | none => .exn .keyError
  | _ => .exn .typeError

/-- Escapes a backslash and the chosen quote character, as `repr` does. -/
def pyEscape (q : Char) : List Char → List Char
  | [] => []
  | c :: cs =>
    (if c = '\\' then ['\\', '\\'] else if c = q then ['\\', q] else [c]) ++ pyEscape q cs

/-- Model of CPython's `repr` of a `str` (quote choice as CPython: single
quotes unless the string contains one and no double quote; control-character
escapes are not modelled). -/
def pyReprString (s : String) : String :=
  let hasSq := s.data.contains squoteC
  let hasDq := s.data.contains '"'
  let q : Char := if hasSq && !hasDq then '"' else squoteC
  String.mk (q :: (pyEscape q s.data ++ [q]))

mutual

/-- Model of CPython's `repr` of an object decoded by `json.loads`. -/
def pyRepr : JValue → String
  | .jnull => "None"
  | .jbool true => "True"
  | .jbool false => "False"
  | .jnum i => String.mk (intToChars i)
  | .jstr s => pyReprString s
  | .jarr [] => "[]"
  | .jarr (x :: xs) => "[" ++ pyRepr x ++ pyReprTail xs ++ "]"
  | .jobj [] => "\x7b\x7d"
  | .jobj ((k, v) :: fs) => "\x7b" ++ pyReprString k ++ ": " ++ pyRepr v ++ pyReprFieldsTail fs ++ "\x7d"

/-- Continuation of a list `repr`. -/
def pyReprTail : List JValue → String
  | [] => ""
  | x :: xs => ", " ++ pyRepr x ++ pyReprTail xs

/-- Continuation of a dict `repr`. -/
def pyReprFieldsTail : List (String × JValue) → String
  | [] => ""
  | (k, v) :: fs => ", " ++ pyReprString k ++ ": " ++ pyRepr v ++ pyReprFieldsTail fs

end

/-- Model of Python's `str()` conversion, as used by the f-string
`f"Bearer {bearer_token}"`: a `str` formats as itself, anything else as its
`repr` (for the types produced by `json.loads`). -/
def pyStr : JValue → String
  | .jstr s => s
  | v => pyRepr v

/-! ## Embedding of `proxy_task` (one relay direction) -/

/-- Environment of one iteration of `proxy_task`'s `async for` loop: the raw
message read from the source socket, and the exception (if any) that
`target_websocket.send` raises when a send is attempted for this message. -/
structure RelayStep where
  raw : String
  sendExc : Option PyExc
deriving DecidableEq

/-- Observable effect of one iteration of the relay loop. -/
inductive RelayEvent where
  | delivered : String → RelayEvent
  | parseErrorLogged : String → RelayEvent
  | sendErrorLogged : PyExc → RelayEvent
  | stoppedOnClosed : RelayEvent
deriving DecidableEq

/-- Embedding of `proxy_task`'s loop body and `except` clauses: for each
message, `json.loads` it; a parse failure is caught by `except Exception`
(printed, loop continues); a successful parse re-encodes with `json.dumps`
and sends; a `ConnectionClosed` from `send` hits `break`, any other send
exception is caught by `except Exception` (printed, loop continues). -/
def proxy_task_run : List RelayStep → List RelayEvent
  | [] => []
  | s :: rest =>
    match json_loads s.raw with
    | none => .parseErrorLogged s.raw :: proxy_task_run rest
    | some v =>
      match s.sendExc with
      | none => .delivered (json_dumps v) :: proxy_task_run rest
      | some .connectionClosed => [.stoppedOnClosed]
      | some e => .sendErrorLogged e :: proxy_task_run rest

/-- The messages actually written to the destination socket. -/
def deliveredMsgs : List RelayEvent → List String
  | [] => []
  | .delivered p :: rest => p :: deliveredMsgs rest
  | _ :: rest => deliveredMsgs rest

/-- Outcome of an `asyncio` task: completion with its events, or a raised
exception. -/
inductive TaskOutcome where
  | completed : List RelayEvent → TaskOutcome
  | raised : PyExc → TaskOutcome

/-- Embedding of a `proxy_task` run as a task: it traps every exception,
so the task always completes with its event trace. -/
def runRelayTask (steps : List RelayStep) : TaskOutcome :=
  .completed (proxy_task_run steps)

/-- Result of `await asyncio.gather(t1, t2)` (no `return_exceptions`): if
both tasks complete, the await returns after both have finished; if either
raises, the await re-raises at once without waiting for the sibling. -/
inductive GatherOutcome where
  | bothDone : List RelayEvent → List RelayEvent → GatherOutcome
  | abortedEarly : PyExc → GatherOutcome

/-- Embedding of `asyncio.gather` on two task outcomes. -/
def gatherTasks : TaskOutcome → TaskOutcome → GatherOutcome
  | .completed a, .completed b => .bothDone a b
  | .raised e, _ => .abortedEarly e
  | _, .raised e => .abortedEarly e

/-! ## Embedding of `create_proxy` (session orchestrator) -/

/-- The fixed upstream host constant `HOST`. -/
def HOST : String := "us-central1-aiplatform.googleapis.com"

/-- The fixed upstream endpoint constant `SERVICE_URL`. -/
def SERVICE_URL : String :=
  "wss://" ++ HOST ++ "/ws/google.cloud.aiplatform.v1beta1.LlmBidiService/BidiGenerateContent"

/-- Outcome of `websockets.connect(SERVICE_URL, ...)`. -/
inductive ConnectOutcome where
  | ok : ConnectOutcome
  | failed : ConnectOutcome
deriving DecidableEq

/-- Observable result of one `create_proxy` run. -/
structure SessionRun where
  url : String
  headers : List (String × String)
  upstreamOpened : Bool
  upstreamClosed : Bool
  upstreamReceived : List String
  clientReceived : List String
  dialErrorLogged : Bool
  waitedBothRelays : Bool
  escaped : Option PyExc
deriving DecidableEq

/-- Embedding of `create_proxy`: build the headers, dial the upstream inside
`async with` (a dial failure is caught and logged, nothing forwarded), then
run the two relay tasks joined by `asyncio.gather` inside a `try` whose
`except Exception` logs a gather error.  The `async with` scope closes the
upstream connection on every exit path, and the outer `except Exception`
prevents any exception from escaping. -/
def create_proxy (bearer_token : JValue) (conn : ConnectOutcome)
    (clientToServer serverToClient : List RelayStep) : SessionRun :=
  let headers := [("Content-Type", "application/json"),
                  ("Authorization", "Bearer " ++ pyStr bearer_token)]
  match conn with
  | .failed =>
    { url := SERVICE_URL, headers := headers, upstreamOpened := false,
      upstreamClosed := false, upstreamReceived := [], clientReceived := [],
      dialErrorLogged := true, waitedBothRelays := false, escaped := none }
  | .ok =>
    match gatherTasks (runRelayTask clientToServer) (runRelayTask serverToClient) with
    | .bothDone ev1 ev2 =>
      { url := SERVICE_URL, headers := headers, upstreamOpened := true,
        upstreamClosed := true, upstreamReceived := deliveredMsgs ev1,
        clientReceived := deliveredMsgs ev2, dialErrorLogged := false,
        waitedBothRelays := true, escaped := none }
    | .abortedEarly _ =>
      { url := SERVICE_URL, headers := headers, upstreamOpened := true,
        upstreamClosed := true, upstreamReceived := [], clientReceived := [],
        dialErrorLogged := false, waitedBothRelays := false, escaped := none }

/-! ## Embedding of `handle_client` (connection gatekeeper) -/

/-- The timeout (seconds) passed to `asyncio.wait_for` for the first
message. -/
def AUTH_TIMEOUT_SECONDS : Nat := 5

/-- Outcome of `await asyncio.wait_for(client_websocket.recv(), timeout=5.0)`:
a message, a `TimeoutError`, or another receive exception. -/
inductive RecvResult where
  | timeout : RecvResult
  | recvError : RecvResult
  | msg : String → RecvResult

/-- Observable result of one `handle_client` run. -/
structure HandleResult where
  session : Option SessionRun
  closeCode : Option (Nat × String)
  escaped : Option PyExc
deriving DecidableEq

/-- Embedding of `handle_client`: await the first message (5 s timeout),
`json.loads` it, test `"bearer_token" in auth_data`, and either call
`create_proxy` with `auth_data["bearer_token"]`, close with 1008
"Bearer token missing", or — on any exception (timeout, receive error,
parse error, `TypeError` from `in` or `[]`) — close with 1011
"Internal error". -/
def handle_client (first : RecvResult) (conn : ConnectOutcome)
    (clientToServer serverToClient : List RelayStep) : HandleResult :=
  match first with
  | .timeout => { session := none, closeCode := some (1011, "Internal error"), escaped := none }
  | .recvError => { session := none, closeCode := some (1011, "Internal error"), escaped := none }
  | .msg raw =>
    match json_loads raw with
    | none => { session := none, closeCode := some (1011, "Internal error"), escaped := none }
    | some auth_data =>
      match pyContains "bearer_token" auth_data with
      | .exn _ => { session := none, closeCode := some (1011, "Internal error"), escaped := none }
      | .ok false => { session := none, closeCode := some (1008, "Bearer token missing"),
                       escaped := none }
      | .ok true =>
        match pySubscript "bearer_token" auth_data with
        | .exn _ => { session := none, closeCode := some (1011, "Internal error"), escaped := none }
        | .ok tok =>
          { session := some (create_proxy tok conn clientToServer serverToClient),
            closeCode := none, escaped := none }

/-! ## Decode/encode round trip: auxiliary lemmas -/

/-- Holds when the list does not begin with a decimal digit, so that a
maximal digit run ending just before it is parsed back unchanged. -/
def noDigitHead : List Char → Bool
  | [] => true
  | c :: _ => !c.isDigit

theorem parseStringChars_cons (c : Char) (rest : List Char) :
    parseStringChars (c :: rest) =
      if c = '"' then some ([], rest)
      else if c = '\\' then
        match rest with
        | [] => none
        | e :: r2 =>
          if e = '"' then (parseStringChars r2).map (fun p => ('"' :: p.1, p.2))
          else if e = '\\' then (parseStringChars r2).map (fun p => ('\\' :: p.1, p.2))
          else none
      else (parseStringChars rest).map (fun p => (c :: p.1, p.2)) := by
  rw [parseStringChars.eq_def]

theorem parseStringChars_escChars (cs : List Char) (rest : List Char) :
    parseStringChars (escChars cs ++ '"' :: rest) = some (cs, rest) := by
  induction cs with
  | nil =>
    simp only [escChars, List.nil_append]
    rw [parseStringChars_cons]
    rfl
  | cons c cs ih =>
    simp only [escChars]
    by_cases hq : c = '"'
    · subst hq
      rw [show escChar '"' = ['\\', '"'] from rfl]
      simp only [List.cons_append, List.nil_append]
      rw [parseStringChars_cons]
      simp [ih]
    · by_cases hb : c = '\\'
      · subst hb
        rw [show escChar '\\' = ['\\', '\\'] from rfl]
        simp only [List.cons_append, List.nil_append]
        rw [parseStringChars_cons]
        simp [ih]
      · simp only [escChar, if_neg hq, if_neg hb, List.cons_append, List.nil_append]
        rw [parseStringChars_cons, if_neg hq, if_neg hb, ih]
        rfl

theorem digitsVal_append (xs : List Char) (c : Char) :
    digitsVal (xs ++ [c]) = 10 * digitsVal xs + (c.toNat - 48) := by
  induction xs with
  | nil => simp [digitsVal]
  | cons x xs ih =>
    have hx : digitsVal ((x :: xs) ++ [c]) =
        digitsVal (xs ++ [c]) + (x.toNat - 48) * 10 ^ (xs ++ [c]).length := rfl
    have hx2 : digitsVal (x :: xs) = digitsVal xs + (x.toNat - 48) * 10 ^ xs.length := rfl
    rw [hx, hx2, ih, List.length_append, List.length_singleton]
    ring

theorem charOfDigit_toNat (d : Nat) (h : d < 10) : (Char.ofNat (48 + d)).toNat = 48 + d := by
  interval_cases d <;> decide

theorem charOfDigit_isDigit (d : Nat) (h : d < 10) : (Char.ofNat (48 + d)).isDigit = true := by
  interval_cases d <;> decide

theorem natToCharsRev_val (f : Nat) :
    ∀ n, n < 10 ^ f → digitsVal ((natToCharsRev f n).reverse) = n := by
  induction f with
  | zero =>
    intro n hn
    interval_cases n
    rfl
  | succ f ih =>
    intro n hn
    by_cases hz : n = 0
    · subst hz; rfl
    · have hdiv : n / 10 < 10 ^ f := by
        rw [Nat.div_lt_iff_lt_mul (by norm_num)]
        calc n < 10 ^ (f + 1) := hn
          _ = 10 ^ f * 10 := by ring
      simp only [natToCharsRev, if_neg hz, List.reverse_cons]
      rw [digitsVal_append, ih _ hdiv, charOfDigit_toNat _ (Nat.mod_lt n (by norm_num))]
      omega

theorem natToCharsRev_digits (f : Nat) :
    ∀ n c, c ∈ natToCharsRev f n → c.isDigit = true := by
  induction f with
  | zero => intro n c hc; simp [natToCharsRev] at hc
  | succ f ih =>
    intro n c hc
    by_cases hz : n = 0
    · subst hz; simp [natToCharsRev] at hc
    · simp only [natToCharsRev, if_neg hz, List.mem_cons] at hc
      rcases hc with h | h
      · subst h; exact charOfDigit_isDigit _ (Nat.mod_lt n (by norm_num))
      · exact ih _ _ h

theorem natToChars_digits (n : Nat) : ∀ c ∈ natToChars n, c.isDigit = true := by
  intro c hc
  unfold natToChars at hc
  by_cases hz : n = 0
  · simp [hz] at hc; subst hc; decide
  · rw [if_neg hz, List.mem_reverse] at hc
    exact natToCharsRev_digits _ _ _ hc

theorem natToChars_val (n : Nat) : digitsVal (natToChars n) = n := by
  by_cases hz : n = 0
  · subst hz; rfl
  · unfold natToChars
    rw [if_neg hz]
    refine natToCharsRev_val (n + 1) n ?_
    calc n < 10 ^ n := Nat.lt_pow_self (by norm_num) n
      _ ≤ 10 ^ (n + 1) := Nat.pow_le_pow_right (by norm_num) (Nat.le_succ n)

theorem natToChars_cons (n : Nat) : ∃ c cs, natToChars n = c :: cs ∧ c.isDigit = true := by
  cases h : natToChars n with
  | nil =>
    exfalso
    by_cases hz : n = 0
    · subst hz; simp [natToChars] at h
    · unfold natToChars at h
      rw [if_neg hz, List.reverse_eq_nil_iff] at h
      have : n ≠ 0 → natToCharsRev (n + 1) n = Char.ofNat (48 + n % 10) :: natToCharsRev n (n / 10) := by
        intro h'; simp [natToCharsRev, h']
      rw [this hz] at h
      exact List.cons_ne_nil _ _ h
  | cons c cs =>
    exact ⟨c, cs, rfl, natToChars_digits n c (h ▸ List.mem_cons_self c cs)⟩

theorem takeDigits_append (ds rest : List Char) (hds : ∀ c ∈ ds, c.isDigit = true)
    (hrest : noDigitHead rest = true) : takeDigits (ds ++ rest) = (ds, rest) := by
  induction ds with
  | nil =>
    cases rest with
    | nil => rfl
    | cons c r =>
      have : c.isDigit = false := by
        simp [noDigitHead] at hrest; simp [hrest]
      simp [takeDigits, this]
  | cons d ds ih =>
    have hd : d.isDigit = true := hds d (List.mem_cons_self d ds)
    have ih' := ih (fun c hc => hds c (List.mem_cons_of_mem d hc))
    simp [takeDigits, hd, ih']

theorem parseNatNum_natToChars (n : Nat) (rest : List Char) (h : noDigitHead rest = true) :
    parseNatNum (natToChars n ++ rest) = some (n, rest) := by
  obtain ⟨c, cs, hc, _⟩ := natToChars_cons n
  have hne : (natToChars n).isEmpty = false := by rw [hc]; rfl
  unfold parseNatNum
  rw [takeDigits_append _ _ (natToChars_digits n) h]
  simp [hne, natToChars_val]

theorem noDigitHead_cons (c : Char) (l : List Char) : noDigitHead (c :: l) = !c.isDigit := rfl

/-- Every serialized JSON value starts with one of the characters the parser
dispatches on. -/
theorem dumpChars_cons (v : JValue) : ∃ c cs, dumpChars v = c :: cs ∧
    (c = '"' ∨ c = '[' ∨ c = lbraceC ∨ c = 'n' ∨ c = 't' ∨ c = 'f' ∨ c = '-' ∨
      c.isDigit = true) := by
  cases v with
  | jnull => exact ⟨'n', ['u', 'l', 'l'], by simp [dumpChars], by simp⟩
  | jbool b =>
    cases b with
    | true => exact ⟨'t', ['r', 'u', 'e'], by simp [dumpChars], by simp⟩
    | false => exact ⟨'f', ['a', 'l', 's', 'e'], by simp [dumpChars], by simp⟩
  | jnum i =>
    by_cases hneg : i < 0
    · exact ⟨'-', natToChars i.natAbs, by simp [dumpChars, intToChars, hneg], by simp⟩
    · obtain ⟨c, cs, hc, hd⟩ := natToChars_cons i.toNat
      exact ⟨c, cs, by simp [dumpChars, intToChars, hneg, hc], by simp [hd]⟩
  | jstr s => exact ⟨'"', escChars s.data ++ ['"'], by simp [dumpChars], by simp⟩
  | jarr xs =>
    cases xs with
    | nil => exact ⟨'[', [']'], by simp [dumpChars], by simp⟩
    | cons x xs =>
      exact ⟨'[', dumpChars x ++ dumpTail xs ++ [']'], by simp [dumpChars], by simp⟩
  | jobj fs =>
    cases fs with
    | nil => exact ⟨lbraceC, [rbraceC], by simp [dumpChars], by simp⟩
    | cons kv fs =>
      exact ⟨lbraceC, dumpMember kv ++ dumpMembersTail fs ++ [rbraceC],
        by simp [dumpChars], by simp⟩

theorem dumpChars_length_pos (v : JValue) : 1 ≤ (dumpChars v).length := by
  obtain ⟨c, cs, h, _⟩ := dumpChars_cons v
  simp [h]

theorem dumpMember_length_pos (kv : String × JValue) : 1 ≤ (dumpMember kv).length := by
  obtain ⟨k, v⟩ := kv
  simp [dumpMember]

/-- A serialized value never starts with a structural terminator. -/
theorem valueStart_ne (c : Char)
    (h : c = '"' ∨ c = '[' ∨ c = lbraceC ∨ c = 'n' ∨ c = 't' ∨ c = 'f' ∨ c = '-' ∨
      c.isDigit = true) : c ≠ ']' ∧ c ≠ rbraceC := by
  rcases h with rfl | rfl | rfl | rfl | rfl | rfl | rfl | hd
  · exact ⟨by decide, by decide⟩
  · exact ⟨by decide, by decide⟩
  · exact ⟨by decide, by decide⟩
  · exact ⟨by decide, by decide⟩
  · exact ⟨by decide, by decide⟩
  · exact ⟨by decide, by decide⟩
  · exact ⟨by decide, by decide⟩
  · constructor
    · intro hc; subst hc; exact absurd hd (by decide)
    · intro hc; subst hc; exact absurd hd (by decide)

/-- A digit head fails every guard the parser tries before the number case. -/
theorem digit_ne_guards (c : Char) (hd : c.isDigit = true) :
    c ≠ '"' ∧ c ≠ '[' ∧ c ≠ lbraceC ∧ c ≠ 'n' ∧ c ≠ 't' ∧ c ≠ 'f' ∧ c ≠ '-' := by
  refine ⟨?_, ?_, ?_, ?_, ?_, ?_, ?_⟩ <;>
    (intro hc; subst hc; exact absurd hd (by decide))

theorem parseValue_succ_cons (f : Nat) (c : Char) (rest : List Char) :
    parseValue (f + 1) (c :: rest) =
      if c = '"' then (parseStringChars rest).map (fun p => (JValue.jstr (String.mk p.1), p.2))
      else if c = '[' then
        match rest with
        | [] => none
        | d :: r2 =>
          if d = ']' then some (JValue.jarr [], r2)
          else (parseElems f (d :: r2)).map (fun p => (JValue.jarr p.1, p.2))
      else if c = lbraceC then
        match rest with
        | [] => none
        | d :: r2 =>
          if d = rbraceC then some (JValue.jobj [], r2)
          else (parseMembers f (d :: r2)).map (fun p => (JValue.jobj p.1, p.2))
      else if c = 'n' then (dropLit ['u', 'l', 'l'] rest).map (fun r => (JValue.jnull, r))
      else if c = 't' then (dropLit ['r', 'u', 'e'] rest).map (fun r => (JValue.jbool true, r))
      else if c = 'f' then
        (dropLit ['a', 'l', 's', 'e'] rest).map (fun r => (JValue.jbool false, r))
      else if c = '-' then (parseNatNum rest).map (fun p => (JValue.jnum (-(p.1 : Int)), p.2))
      else if c.isDigit then
        (parseNatNum (c :: rest)).map (fun p => (JValue.jnum (p.1 : Int), p.2))
      else none := by
  rw [parseValue.eq_def]

theorem parseElems_succ (f : Nat) (cs : List Char) :
    parseElems (f + 1) cs =
      match parseValue f cs with
      | none => none
      | some (v, rest) =>
        match rest with
        | [] => none
        | c :: r2 =>
          if c = ',' then (parseElems f r2).map (fun p => (v :: p.1, p.2))
          else if c = ']' then some ([v], r2)
          else none := by
  rw [parseElems.eq_def]

theorem parseMembers_succ_cons (f : Nat) (c : Char) (rest : List Char) :
    parseMembers (f + 1) (c :: rest) =
      if c = '"' then
        match parseStringChars rest with
        | none => none
        | some (k, r1) =>
          match r1 with
          | [] => none
          | c1 :: r2 =>
            if c1 = ':' then
              match parseValue f r2 with
              | none => none
              | some (v, r3) =>
                match r3 with
                | [] => none
                | c2 :: r4 =>
                  if c2 = ',' then
                    (parseMembers f r4).map (fun p => ((String.mk k, v) :: p.1, p.2))
                  else if c2 = rbraceC then some ([(String.mk k, v)], r4)
                  else none
            else none
      else none := by
  rw [parseMembers.eq_def]

theorem parseValue_quote (f : Nat) (rest : List Char) :
    parseValue (f + 1) ('"' :: rest) =
      (parseStringChars rest).map (fun p => (JValue.jstr (String.mk p.1), p.2)) := by
  rw [parseValue_succ_cons, if_pos rfl]

theorem parseValue_null (f : Nat) (rest : List Char) :
    parseValue (f + 1) ('n' :: rest) =
      (dropLit ['u', 'l', 'l'] rest).map (fun r => (JValue.jnull, r)) := by
  rw [parseValue_succ_cons, if_neg (by decide), if_neg (by decide), if_neg (by decide),
    if_pos rfl]

theorem parseValue_true (f : Nat) (rest : List Char) :
    parseValue (f + 1) ('t' :: rest) =
      (dropLit ['r', 'u', 'e'] rest).map (fun r => (JValue.jbool true, r)) := by
  rw [parseValue_succ_cons, if_neg (by decide), if_neg (by decide), if_neg (by decide),
    if_neg (by decide), if_pos rfl]

theorem parseValue_false (f : Nat) (rest : List Char) :
    parseValue (f + 1) ('f' :: rest) =
      (dropLit ['a', 'l', 's', 'e'] rest).map (fun r => (JValue.jbool false, r)) := by
  rw [parseValue_succ_cons, if_neg (by decide), if_neg (by decide), if_neg (by decide),
    if_neg (by decide), if_neg (by decide), if_pos rfl]

theorem parseValue_minus (f : Nat) (rest : List Char) :
    parseValue (f + 1) ('-' :: rest) =
      (parseNatNum rest).map (fun p => (JValue.jnum (-(p.1 : Int)), p.2)) := by
  rw [parseValue_succ_cons, if_neg (by decide), if_neg (by decide), if_neg (by decide),
    if_neg (by decide), if_neg (by decide), if_neg (by decide), if_pos rfl]

theorem parseValue_digit (f : Nat) (c : Char) (rest : List Char) (hd : c.isDigit = true) :
    parseValue (f + 1) (c :: rest) =
      (parseNatNum (c :: rest)).map (fun p => (JValue.jnum (p.1 : Int), p.2)) := by
  obtain ⟨h1, h2, h3, h4, h5, h6, h7⟩ := digit_ne_guards c hd
  rw [parseValue_succ_cons, if_neg h1, if_neg h2, if_neg h3, if_neg h4, if_neg h5, if_neg h6,
    if_neg h7, if_pos hd]

theorem parseValue_arr_nil (f : Nat) (rest : List Char) :
    parseValue (f + 1) ('[' :: ']' :: rest) = some (JValue.jarr [], rest) := by
  rw [parseValue_succ_cons, if_neg (by decide), if_pos rfl]
  simp

theorem parseValue_arr_cons (f : Nat) (d : Char) (r2 : List Char) (hd : d ≠ ']') :
    parseValue (f + 1) ('[' :: d :: r2) =
      (parseElems f (d :: r2)).map (fun p => (JValue.jarr p.1, p.2)) := by
  rw [parseValue_succ_cons, if_neg (by decide), if_pos rfl]
  simp [hd]

theorem parseValue_obj_nil (f : Nat) (rest : List Char) :
    parseValue (f + 1) (lbraceC :: rbraceC :: rest) = some (JValue.jobj [], rest) := by
  rw [parseValue_succ_cons, if_neg (by decide), if_neg (by decide), if_pos rfl]
  simp

theorem parseValue_obj_cons (f : Nat) (d : Char) (r2 : List Char) (hd : d ≠ rbraceC) :
    parseValue (f + 1) (lbraceC :: d :: r2) =
      (parseMembers f (d :: r2)).map (fun p => (JValue.jobj p.1, p.2)) := by
  rw [parseValue_succ_cons, if_neg (by decide), if_neg (by decide), if_pos rfl]
  simp [hd]

/-- Round trip of the JSON codec model, by induction on the parser fuel:
a serialized value followed by any continuation that does not start with a
digit parses back to exactly that value. -/
theorem parse_dump_master (fuel : Nat) :
    (∀ v rest, (dumpChars v).length ≤ fuel → noDigitHead rest = true →
      parseValue fuel (dumpChars v ++ rest) = some (v, rest)) ∧
    (∀ x xs rest, (dumpChars x ++ dumpTail xs).length + 1 ≤ fuel →
      parseElems fuel (dumpChars x ++ (dumpTail xs ++ ']' :: rest)) = some (x :: xs, rest)) ∧
    (∀ k v fs rest, (dumpMember (k, v) ++ dumpMembersTail fs).length + 1 ≤ fuel →
      parseMembers fuel (dumpMember (k, v) ++ (dumpMembersTail fs ++ rbraceC :: rest)) =
        some ((k, v) :: fs, rest)) := by
  induction fuel with
  | zero =>
    refine ⟨fun v rest hf _ => absurd hf ?_, fun x xs rest hf => absurd hf (by omega),
      fun k v fs rest hf => absurd hf (by omega)⟩
    have := dumpChars_length_pos v
    omega
  | succ f ih =>
    obtain ⟨ihV, ihE, ihM⟩ := ih
    refine ⟨?_, ?_, ?_⟩
    · intro v rest hf hrest
      cases v with
      | jnull =>
        rw [show dumpChars JValue.jnull = ['n', 'u', 'l', 'l'] from by simp [dumpChars]]
        simp only [List.cons_append, List.nil_append]
        rw [parseValue_null]
        simp [dropLit]
      | jbool b =>
        cases b with
        | true =>
          rw [show dumpChars (JValue.jbool true) = ['t', 'r', 'u', 'e'] from by simp [dumpChars]]
          simp only [List.cons_append, List.nil_append]
          rw [parseValue_true]
          simp [dropLit]
        | false =>
          rw [show dumpChars (JValue.jbool false) = ['f', 'a', 'l', 's', 'e']
            from by simp [dumpChars]]
          simp only [List.cons_append, List.nil_append]
          rw [parseValue_false]
          simp [dropLit]
      | jnum i =>
        rw [show dumpChars (JValue.jnum i) = intToChars i from by simp [dumpChars]]
        by_cases hneg : i < 0
        · rw [show intToChars i = '-' :: natToChars i.natAbs from by simp [intToChars, hneg]]
          simp only [List.cons_append]
          rw [parseValue_minus, parseNatNum_natToChars _ _ hrest]
          simp only [Option.map_some', Option.some.injEq, Prod.mk.injEq, JValue.jnum.injEq]
          exact ⟨by omega, trivial⟩
        · rw [show intToChars i = natToChars i.toNat from by simp [intToChars, hneg]]
          obtain ⟨c, cs2, hc, hdig⟩ := natToChars_cons i.toNat
          rw [hc]
          simp only [List.cons_append]
          rw [parseValue_digit f c _ hdig, ← List.cons_append, ← hc,
            parseNatNum_natToChars _ _ hrest]
          simp only [Option.map_some', Option.some.injEq, Prod.mk.injEq, JValue.jnum.injEq]
          exact ⟨by omega, trivial⟩
      | jstr s =>
        obtain ⟨data⟩ := s
        rw [show dumpChars (JValue.jstr (String.mk data)) = '"' :: (escChars data ++ ['"'])
          from by simp [dumpChars]]
        simp only [List.cons_append, List.append_assoc, List.singleton_append]
        rw [parseValue_quote, parseStringChars_escChars]
        rfl
      | jarr xs =>
        cases xs with
        | nil =>
          rw [show dumpChars (JValue.jarr []) = ['[', ']'] from by simp [dumpChars]]
          simp only [List.cons_append, List.nil_append]
          rw [parseValue_arr_nil]
        | cons x xs =>
          have hdd : dumpChars (JValue.jarr (x :: xs)) =
              '[' :: (dumpChars x ++ dumpTail xs ++ [']']) := by simp [dumpChars]
          have hlen : (dumpChars x ++ dumpTail xs).length + 1 ≤ f := by
            rw [hdd] at hf
            simp only [List.length_cons, List.length_append, List.length_singleton] at hf ⊢
            omega
          obtain ⟨c, cs2, hc, hstart⟩ := dumpChars_cons x
          have hne := (valueStart_ne c hstart).1
          rw [hdd]
          simp only [List.cons_append, List.append_assoc, List.singleton_append,
            List.nil_append]
          rw [hc]
          simp only [List.cons_append]
          rw [parseValue_arr_cons f c _ hne, ← List.cons_append, ← hc,
            ihE x xs rest hlen]
          rfl
      | jobj fs =>
        cases fs with
        | nil =>
          rw [show dumpChars (JValue.jobj []) = [lbraceC, rbraceC] from by simp [dumpChars]]
          simp only [List.cons_append, List.nil_append]
          rw [parseValue_obj_nil]
        | cons kv fs =>
          obtain ⟨k, v2⟩ := kv
          have hdd : dumpChars (JValue.jobj ((k, v2) :: fs)) =
              lbraceC :: (dumpMember (k, v2) ++ dumpMembersTail fs ++ [rbraceC]) := by
            simp [dumpChars]
          have hlen : (dumpMember (k, v2) ++ dumpMembersTail fs).length + 1 ≤ f := by
            rw [hdd] at hf
            simp only [List.length_cons, List.length_append, List.length_singleton] at hf ⊢
            omega
          have hdm : dumpMember (k, v2) = '"' :: (escChars k.data ++ '"' :: ':' :: dumpChars v2) := by
            simp [dumpMember]
          rw [hdd]
          simp only [List.cons_append, List.append_assoc, List.singleton_append,
            List.nil_append]
          rw [hdm]
          simp only [List.cons_append]
          rw [parseValue_obj_cons f '"' _ (by decide), ← List.cons_append, ← hdm,
            ihM k v2 fs rest hlen]
          rfl
    · intro x xs rest hf
      have hx : (dumpChars x).length ≤ f := by
        simp only [List.length_append] at hf
        omega
      have hnd : noDigitHead (dumpTail xs ++ ']' :: rest) = true := by
        cases xs with
        | nil =>
          rw [show dumpTail [] = ([] : List Char) from by simp [dumpTail]]
          simp only [List.nil_append]
          rw [noDigitHead_cons]
          decide
        | cons y ys =>
          rw [show dumpTail (y :: ys) = ',' :: (dumpChars y ++ dumpTail ys)
            from by simp [dumpTail]]
          simp only [List.cons_append]
          rw [noDigitHead_cons]
          decide
      rw [parseElems_succ, ihV x _ hx hnd]
      cases xs with
      | nil => simp [dumpTail]
      | cons y ys =>
        have hp := dumpChars_length_pos x
        have hdt : dumpTail (y :: ys) = ',' :: (dumpChars y ++ dumpTail ys) := by simp [dumpTail]
        have hylen : (dumpChars y ++ dumpTail ys).length + 1 ≤ f := by
          rw [hdt] at hf
          simp only [List.length_append, List.length_cons] at hf ⊢
          omega
        rw [hdt]
        simp only [List.cons_append, List.append_assoc]
        simp [ihE y ys rest hylen]
    · intro k v fs rest hf
      obtain ⟨kdata⟩ := k
      have hdm : dumpMember (String.mk kdata, v) =
          '"' :: (escChars kdata ++ '"' :: ':' :: dumpChars v) := by simp [dumpMember]
      have hvlen : (dumpChars v).length ≤ f := by
        rw [hdm] at hf
        simp only [List.length_cons, List.length_append] at hf
        omega
      have hnd : noDigitHead (dumpMembersTail fs ++ rbraceC :: rest) = true := by
        cases fs with
        | nil =>
          rw [show dumpMembersTail ([] : List (String × JValue)) = []
            from by simp [dumpMembersTail]]
          simp only [List.nil_append]
          rw [noDigitHead_cons]
          decide
        | cons kv2 fs2 =>
          rw [show dumpMembersTail (kv2 :: fs2) = ',' :: (dumpMember kv2 ++ dumpMembersTail fs2)
            from by simp [dumpMembersTail]]
          simp only [List.cons_append]
          rw [noDigitHead_cons]
          decide
      have hbc : ¬(rbraceC = ',') := by decide
      rw [hdm]
      simp only [List.cons_append, List.append_assoc]
      rw [parseMembers_succ_cons, if_pos rfl, parseStringChars_escChars]
      cases fs with
      | nil =>
        rw [show dumpMembersTail ([] : List (String × JValue)) = []
          from by simp [dumpMembersTail]] at hnd ⊢
        simp only [List.nil_append] at hnd ⊢
        simp [ihV v (rbraceC :: rest) hvlen hnd, hbc]
      | cons kv2 fs2 =>
        obtain ⟨k2, v2⟩ := kv2
        have hdt : dumpMembersTail ((k2, v2) :: fs2) =
            ',' :: (dumpMember (k2, v2) ++ dumpMembersTail fs2) := by simp [dumpMembersTail]
        have hmp := dumpMember_length_pos (String.mk kdata, v)
        have h2len : (dumpMember (k2, v2) ++ dumpMembersTail fs2).length + 1 ≤ f := by
          rw [hdm] at hmp
          rw [hdt] at hf
          simp only [List.length_cons, List.length_append] at hf ⊢
          omega
        rw [hdt] at hnd ⊢
        simp only [List.cons_append, List.append_assoc] at hnd ⊢
        simp [ihV v _ hvlen hnd, ihM k2 v2 fs2 rest h2len, hbc]

/-- The decode of an encode is the original decoded structure. -/
theorem json_loads_dumps (v : JValue) : json_loads (json_dumps v) = some v := by
  have h := (parse_dump_master ((dumpChars v).length + 1)).1 v [] (by omega) rfl
  rw [List.append_nil] at h
  show (match parseValue ((dumpChars v).length + 1) (dumpChars v) with
        | some (w, []) => some w
        | _ => none) = some v
  rw [h]

/-! ## Helper lemmas about the embedded program -/

/-- A key that the membership test finds is also found by the subscript. -/
theorem lookupLastKey_mem (key : String) (fields : List (String × JValue))
    (h : (fields.any fun kv => kv.1 == key) = true) :
    ∃ v, lookupLastKey key fields = some v := by
  induction fields with
  | nil => simp at h
  | cons kv rest ih =>
    cases hl : lookupLastKey key rest with
    | some v => exact ⟨v, by simp [lookupLastKey, hl]⟩
    | none =>
      have hany : (rest.any fun kv => kv.1 == key) = false := by
        cases hany : (rest.any fun kv => kv.1 == key)
        · rfl
        · obtain ⟨v, hv⟩ := ih hany
          rw [hv] at hl
          exact Option.noConfusion hl
      have hk : kv.1 = key := by
        simp [List.any_cons, hany] at h
        exact h
      exact ⟨kv.2, by simp [lookupLastKey, hl, hk]⟩

/-- The URL and headers of the upstream dial, on either dial outcome. -/
theorem create_proxy_headers_url (tok : JValue) (conn : ConnectOutcome)
    (cts stc : List RelayStep) :
    (create_proxy tok conn cts stc).url = SERVICE_URL ∧
    (create_proxy tok conn cts stc).headers =
      [("Content-Type", "application/json"), ("Authorization", "Bearer " ++ pyStr tok)] := by
  cases conn <;> simp [create_proxy, runRelayTask, gatherTasks]

/-! ## The claims -/

/-- C1: for every first client message that is a JSON object containing the
field `bearer_token`, the orchestrator dials the fixed remote endpoint
`SERVICE_URL` with headers `Content-Type: application/json` and
`Authorization: Bearer <token>`, where `<token>` is exactly the value of
that field (a string field is inserted verbatim). -/
theorem handle_client_auth_header (raw : String) (fields : List (String × JValue))
    (conn : ConnectOutcome) (cts stc : List RelayStep)
    (hparse : json_loads raw = some (JValue.jobj fields))
    (hmem : pyContains "bearer_token" (JValue.jobj fields) = .ok true) :
    ∃ tok, pySubscript "bearer_token" (JValue.jobj fields) = .ok tok ∧
      ∃ run, (handle_client (.msg raw) conn cts stc).session = some run ∧
        run.url = SERVICE_URL ∧
        run.headers = [("Content-Type", "application/json"),
          ("Authorization", "Bearer " ++ pyStr tok)] ∧
        ∀ s, tok = JValue.jstr s →
          run.headers = [("Content-Type", "application/json"),
            ("Authorization", "Bearer " ++ s)] := by
  have hmem' : (fields.any fun kv => kv.1 == "bearer_token") = true := by
    simpa [pyContains] using hmem
  obtain ⟨tok, htok⟩ := lookupLastKey_mem _ _ hmem'
  have hsub : pySubscript "bearer_token" (JValue.jobj fields) = .ok tok := by
    simp [pySubscript, htok]
  refine ⟨tok, hsub, create_proxy tok conn cts stc, ?_, (create_proxy_headers_url _ _ _ _).1,
    (create_proxy_headers_url _ _ _ _).2, ?_⟩
  · simp [handle_client, hparse, hmem, hsub]
  · intro s hs
    subst hs
    simpa [pyStr] using (create_proxy_headers_url (JValue.jstr s) conn cts stc).2

/-- C1 witness at the concrete first message with token `abc123`. -/
theorem handle_client_auth_header_witness :
    ∃ tok, pySubscript "bearer_token"
        (JValue.jobj [("bearer_token", JValue.jstr "abc123")]) = .ok tok ∧
      ∃ run, (handle_client (.msg "\x7b\"bearer_token\":\"abc123\"\x7d") .ok [] []).session =
          some run ∧
        run.url = SERVICE_URL ∧
        run.headers = [("Content-Type", "application/json"),
          ("Authorization", "Bearer " ++ pyStr tok)] ∧
        ∀ s, tok = JValue.jstr s →
          run.headers = [("Content-Type", "application/json"),
            ("Authorization", "Bearer " ++ s)] :=
  handle_client_auth_header "\x7b\"bearer_token\":\"abc123\"\x7d"
    [("bearer_token", JValue.jstr "abc123")] .ok [] [] rfl rfl

/-- C2: a relay direction whose inbound messages all parse as JSON, with all
sends succeeding, delivers exactly as many messages, each decoding to the
decode of the corresponding source message, in the same order. -/
theorem proxy_task_preserves_messages (steps : List RelayStep)
    (hparse : ∀ s ∈ steps, (json_loads s.raw).isSome = true)
    (hsend : ∀ s ∈ steps, s.sendExc = none) :
    (deliveredMsgs (proxy_task_run steps)).length = steps.length ∧
    (deliveredMsgs (proxy_task_run steps)).map json_loads =
      steps.map (fun s => json_loads s.raw) := by
  induction steps with
  | nil => exact ⟨rfl, rfl⟩
  | cons s rest ih =>
    have hs := hparse s (List.mem_cons_self s rest)
    obtain ⟨v, hv⟩ := Option.isSome_iff_exists.mp hs
    have hnone := hsend s (List.mem_cons_self s rest)
    obtain ⟨ih1, ih2⟩ := ih (fun t ht => hparse t (List.mem_cons_of_mem s ht))
      (fun t ht => hsend t (List.mem_cons_of_mem s ht))
    have hrun : proxy_task_run (s :: rest) =
        RelayEvent.delivered (json_dumps v) :: proxy_task_run rest := by
      simp [proxy_task_run, hv, hnone]
    rw [hrun]
    constructor
    · simp [deliveredMsgs, ih1]
    · simp [deliveredMsgs, ih2, json_loads_dumps v, hv]

/-- C2 witness on a concrete two-message sequence. -/
theorem proxy_task_preserves_messages_witness :
    (deliveredMsgs (proxy_task_run
        [⟨"\x7b\"x\":1\x7d", none⟩, ⟨"[true,null]", none⟩])).length =
      ([⟨"\x7b\"x\":1\x7d", none⟩, ⟨"[true,null]", none⟩] : List RelayStep).length ∧
    (deliveredMsgs (proxy_task_run
        [⟨"\x7b\"x\":1\x7d", none⟩, ⟨"[true,null]", none⟩])).map json_loads =
      ([⟨"\x7b\"x\":1\x7d", none⟩, ⟨"[true,null]", none⟩] : List RelayStep).map
        (fun s => json_loads s.raw) :=
  proxy_task_preserves_messages [⟨"\x7b\"x\":1\x7d", none⟩, ⟨"[true,null]", none⟩]
    (by decide) (by decide)

/-- C3: a first message that is valid JSON and an object without the
`bearer_token` field closes the client with 1008 "Bearer token missing",
and no upstream connection is attempted (no session). -/
theorem handle_client_missing_token (raw : String) (fields : List (String × JValue))
    (conn : ConnectOutcome) (cts stc : List RelayStep)
    (hparse : json_loads raw = some (JValue.jobj fields))
    (hmem : pyContains "bearer_token" (JValue.jobj fields) = .ok false) :
    handle_client (.msg raw) conn cts stc =
      { session := none, closeCode := some (1008, "Bearer token missing"), escaped := none } := by
  simp [handle_client, hparse, hmem]

/-- C3 witness at the concrete first message that is the empty object. -/
theorem handle_client_missing_token_witness :
    handle_client (.msg "\x7b\x7d") .ok [] [] =
      { session := none, closeCode := some (1008, "Bearer token missing"), escaped := none } :=
  handle_client_missing_token "\x7b\x7d" [] .ok [] [] rfl rfl

/-- C4: a first message timing out (the `asyncio.wait_for` timeout is 5
seconds) or failing to parse as JSON closes the client with 1011
"Internal error", and no session is started. -/
theorem handle_client_auth_failure_codes (conn : ConnectOutcome) (cts stc : List RelayStep) :
    AUTH_TIMEOUT_SECONDS = 5 ∧
    handle_client .timeout conn cts stc =
      { session := none, closeCode := some (1011, "Internal error"), escaped := none } ∧
    ∀ raw, json_loads raw = none →
      handle_client (.msg raw) conn cts stc =
        { session := none, closeCode := some (1011, "Internal error"), escaped := none } := by
  refine ⟨rfl, rfl, ?_⟩
  intro raw hraw
  simp [handle_client, hraw]

/-- C4 witness at a concrete non-JSON first message. -/
theorem handle_client_auth_failure_codes_witness :
    json_loads "oops" = none ∧
    handle_client (.msg "oops") .ok [] [] =
      { session := none, closeCode := some (1011, "Internal error"), escaped := none } :=
  ⟨rfl, (handle_client_auth_failure_codes .ok [] []).2.2 "oops" rfl⟩

/-- C5: after the upstream connection is established, both relay tasks
complete (neither ever raises, as `proxy_task` traps every exception), the
`asyncio.gather` join therefore waits for both before returning, the
orchestrator reports both relays' deliveries, and no exception escapes. -/
theorem create_proxy_waits_both_relays (tok : JValue) (cts stc : List RelayStep) :
    runRelayTask cts = .completed (proxy_task_run cts) ∧
    runRelayTask stc = .completed (proxy_task_run stc) ∧
    gatherTasks (runRelayTask cts) (runRelayTask stc) =
      .bothDone (proxy_task_run cts) (proxy_task_run stc) ∧
    (create_proxy tok .ok cts stc).waitedBothRelays = true ∧
    (create_proxy tok .ok cts stc).upstreamReceived = deliveredMsgs (proxy_task_run cts) ∧
    (create_proxy tok .ok cts stc).clientReceived = deliveredMsgs (proxy_task_run stc) ∧
    (create_proxy tok .ok cts stc).escaped = none := by
  refine ⟨rfl, rfl, rfl, ?_, ?_, ?_, ?_⟩ <;> simp [create_proxy, runRelayTask, gatherTasks]

/-- C6 counterexample: after a non-connection-closed send failure the relay
loop does NOT stop — the next unit is still forwarded. -/
theorem proxy_task_send_error_cex :
    proxy_task_run [⟨"\x7b\x7d", some PyExc.otherError⟩, ⟨"1", none⟩] =
      [RelayEvent.sendErrorLogged PyExc.otherError, RelayEvent.delivered "1"] ∧
    deliveredMsgs (proxy_task_run [⟨"\x7b\x7d", some PyExc.otherError⟩, ⟨"1", none⟩]) = ["1"] ∧
    proxy_task_run [⟨"\x7b\x7d", some PyExc.otherError⟩, ⟨"1", none⟩] ≠
      [RelayEvent.sendErrorLogged PyExc.otherError] :=
  ⟨rfl, rfl, by decide⟩

/-- C6 (amended): a non-connection-closed send exception is caught and
logged and the relay continues with the next unit (nothing re-raised, the
failed unit delivers nothing). -/
theorem proxy_task_send_error_continues (s : RelayStep) (rest : List RelayStep) (v : JValue)
    (e : PyExc) (hparse : json_loads s.raw = some v) (hexc : s.sendExc = some e)
    (hne : e ≠ PyExc.connectionClosed) :
    proxy_task_run (s :: rest) = RelayEvent.sendErrorLogged e :: proxy_task_run rest ∧
    deliveredMsgs (proxy_task_run (s :: rest)) = deliveredMsgs (proxy_task_run rest) := by
  have hrun : proxy_task_run (s :: rest) =
      RelayEvent.sendErrorLogged e :: proxy_task_run rest := by
    cases e with
    | connectionClosed => exact absurd rfl hne
    | valueError => simp [proxy_task_run, hparse, hexc]
    | typeError => simp [proxy_task_run, hparse, hexc]
    | keyError => simp [proxy_task_run, hparse, hexc]
    | otherError => simp [proxy_task_run, hparse, hexc]
  exact ⟨hrun, by rw [hrun]; simp [deliveredMsgs]⟩

/-- C6 witness at a concrete failing send followed by a delivered unit. -/
theorem proxy_task_send_error_continues_witness :
    json_loads "\x7b\x7d" = some (JValue.jobj []) ∧
    (proxy_task_run [⟨"\x7b\x7d", some PyExc.valueError⟩, ⟨"1", none⟩] =
        RelayEvent.sendErrorLogged PyExc.valueError :: proxy_task_run [⟨"1", none⟩] ∧
      deliveredMsgs (proxy_task_run [⟨"\x7b\x7d", some PyExc.valueError⟩, ⟨"1", none⟩]) =
        deliveredMsgs (proxy_task_run [⟨"1", none⟩])) :=
  ⟨rfl, proxy_task_send_error_continues ⟨"\x7b\x7d", some PyExc.valueError⟩ [⟨"1", none⟩]
    (JValue.jobj []) PyExc.valueError rfl rfl (by decide)⟩

/-- C7: a unit that fails to parse is consumed (logged) and the relay
continues with the next unit; the parse failure neither terminates the loop
nor delivers anything. -/
theorem proxy_task_parse_error_continues (s : RelayStep) (rest : List RelayStep)
    (hparse : json_loads s.raw = none) :
    proxy_task_run (s :: rest) = RelayEvent.parseErrorLogged s.raw :: proxy_task_run rest ∧
    deliveredMsgs (proxy_task_run (s :: rest)) = deliveredMsgs (proxy_task_run rest) := by
  have hrun : proxy_task_run (s :: rest) =
      RelayEvent.parseErrorLogged s.raw :: proxy_task_run rest := by
    simp [proxy_task_run, hparse]
  exact ⟨hrun, by rw [hrun]; simp [deliveredMsgs]⟩

/-- C7 witness at a concrete malformed unit followed by a valid one. -/
theorem proxy_task_parse_error_continues_witness :
    json_loads "not-json" = none ∧
    (proxy_task_run [⟨"not-json", none⟩, ⟨"true", none⟩] =
        RelayEvent.parseErrorLogged "not-json" :: proxy_task_run [⟨"true", none⟩] ∧
      deliveredMsgs (proxy_task_run [⟨"not-json", none⟩, ⟨"true", none⟩]) =
        deliveredMsgs (proxy_task_run [⟨"true", none⟩])) :=
  ⟨rfl, proxy_task_parse_error_continues ⟨"not-json", none⟩ [⟨"true", none⟩] rfl⟩

/-- C8: on every exit path of the orchestrator the upstream connection's
scoped lifetime ends (closed exactly when it was opened), and no exception
escapes `create_proxy`. -/
theorem create_proxy_scoped_close (tok : JValue) (conn : ConnectOutcome)
    (cts stc : List RelayStep) :
    (create_proxy tok conn cts stc).upstreamClosed =
      (create_proxy tok conn cts stc).upstreamOpened ∧
    (create_proxy tok conn cts stc).escaped = none := by
  cases conn <;> simp [create_proxy, runRelayTask, gatherTasks]

/-- C9: whenever a session exists (so the upstream endpoint was dialed),
the first client message was received and parsed successfully (and passed
the membership test). -/
theorem upstream_dial_requires_parsed_first_message (first : RecvResult)
    (conn : ConnectOutcome) (cts stc : List RelayStep)
    (hsess : (handle_client first conn cts stc).session.isSome = true) :
    ∃ raw d, first = .msg raw ∧ json_loads raw = some d ∧
      pyContains "bearer_token" d = .ok true := by
  cases first with
  | timeout => simp [handle_client] at hsess
  | recvError => simp [handle_client] at hsess
  | msg raw =>
    cases hl : json_loads raw with
    | none => simp [handle_client, hl] at hsess
    | some d =>
      refine ⟨raw, d, rfl, hl, ?_⟩
      cases hc : pyContains "bearer_token" d with
      | exn e => simp [handle_client, hl, hc] at hsess
      | ok b =>
        cases b with
        | false => simp [handle_client, hl, hc] at hsess
        | true => rfl

/-- C9 witness at a concrete authenticated first message. -/
theorem upstream_dial_requires_parsed_first_message_witness :
    (handle_client (.msg "\x7b\"bearer_token\":\"t\"\x7d") .ok [] []).session.isSome = true ∧
    ∃ raw d, RecvResult.msg "\x7b\"bearer_token\":\"t\"\x7d" = .msg raw ∧
      json_loads raw = some d ∧ pyContains "bearer_token" d = .ok true :=
  ⟨rfl, upstream_dial_requires_parsed_first_message
    (.msg "\x7b\"bearer_token\":\"t\"\x7d") .ok [] [] rfl⟩

/-- C10 counterexample: the non-object first message `"hello"` (a JSON
string for which the membership test fails) is closed with 1008, not 1011
— refuting "the connection is closed with 1011 (never 1008)" for every
non-object first message. -/
theorem handle_client_nonobject_cex :
    json_loads "\"hello\"" = some (JValue.jstr "hello") ∧
    (∀ fields, JValue.jstr "hello" ≠ JValue.jobj fields) ∧
    (handle_client (.msg "\"hello\"") .ok [] []).closeCode =
      some (1008, "Bearer token missing") ∧
    (handle_client (.msg "\"hello\"") .ok [] []).session = none :=
  ⟨rfl, fun _ h => JValue.noConfusion h, rfl, rfl⟩

/-- C10 (amended): a session is never started for a non-object first
message; if the membership test on the non-object value fails the
connection is closed 1008 "Bearer token missing", otherwise (membership
succeeds, so the subsequent indexing raises, or the membership test itself
raises) it is closed 1011 "Internal error". -/
theorem handle_client_nonobject_amended (raw : String) (d : JValue)
    (conn : ConnectOutcome) (cts stc : List RelayStep)
    (hparse : json_loads raw = some d) (hnotobj : ∀ fields, d ≠ JValue.jobj fields) :
    (handle_client (.msg raw) conn cts stc).session = none ∧
    ((pyContains "bearer_token" d = .ok false ∧
        (handle_client (.msg raw) conn cts stc).closeCode =
          some (1008, "Bearer token missing")) ∨
      (pyContains "bearer_token" d ≠ .ok false ∧
        (handle_client (.msg raw) conn cts stc).closeCode =
          some (1011, "Internal error"))) := by
  cases d with
  | jobj fields => exact absurd rfl (hnotobj fields)
  | jnull =>
    have hc : pyContains "bearer_token" JValue.jnull = .exn .typeError := rfl
    exact ⟨by simp [handle_client, hparse, hc],
      Or.inr ⟨by simp [hc], by simp [handle_client, hparse, hc]⟩⟩
  | jbool b =>
    have hc : pyContains "bearer_token" (JValue.jbool b) = .exn .typeError := rfl
    exact ⟨by simp [handle_client, hparse, hc],
      Or.inr ⟨by simp [hc], by simp [handle_client, hparse, hc]⟩⟩
  | jnum i =>
    have hc : pyContains "bearer_token" (JValue.jnum i) = .exn .typeError := rfl
    exact ⟨by simp [handle_client, hparse, hc],
      Or.inr ⟨by simp [hc], by simp [handle_client, hparse, hc]⟩⟩
  | jstr s =>
    cases hb : hasSubstr "bearer_token".data s.data with
    | false =>
      have hc : pyContains "bearer_token" (JValue.jstr s) = .ok false := by
        simp [pyContains, hb]
      exact ⟨by simp [handle_client, hparse, hc],
        Or.inl ⟨hc, by simp [handle_client, hparse, hc]⟩⟩
    | true =>
      have hc : pyContains "bearer_token" (JValue.jstr s) = .ok true := by
        simp [pyContains, hb]
      have hs : pySubscript "bearer_token" (JValue.jstr s) = .exn .typeError := rfl
      exact ⟨by simp [handle_client, hparse, hc, hs],
        Or.inr ⟨by simp [hc], by simp [handle_client, hparse, hc, hs]⟩⟩
  | jarr xs =>
    cases hb : xs.any (fun x => match x with | .jstr s => s == "bearer_token" | _ => false) with
    | false =>
      have hc : pyContains "bearer_token" (JValue.jarr xs) = .ok false := by
        simp only [pyContains, hb]
      exact ⟨by simp [handle_client, hparse, hc],
        Or.inl ⟨hc, by simp [handle_client, hparse, hc]⟩⟩
    | true =>
      have hc : pyContains "bearer_token" (JValue.jarr xs) = .ok true := by
        simp only [pyContains, hb]
      have hs : pySubscript "bearer_token" (JValue.jarr xs) = .exn .typeError := rfl
      exact ⟨by simp [handle_client, hparse, hc, hs],
        Or.inr ⟨by simp [hc], by simp [handle_client, hparse, hc, hs]⟩⟩

/-- C10 witness at a non-object first message whose membership test
succeeds: the JSON string `"bearer_token"` is closed 1011. -/
theorem handle_client_nonobject_amended_witness :
    json_loads "\"bearer_token\"" = some (JValue.jstr "bearer_token") ∧
    ((handle_client (.msg "\"bearer_token\"") .ok [] []).session = none ∧
      ((pyContains "bearer_token" (JValue.jstr "bearer_token") = .ok false ∧
          (handle_client (.msg "\"bearer_token\"") .ok [] []).closeCode =
            some (1008, "Bearer token missing")) ∨
        (pyContains "bearer_token" (JValue.jstr "bearer_token") ≠ .ok false ∧
          (handle_client (.msg "\"bearer_token\"") .ok [] []).closeCode =
            some (1011, "Internal error")))) :=
  ⟨rfl, handle_client_nonobject_amended "\"bearer_token\"" (JValue.jstr "bearer_token")
    .ok [] [] rfl (fun _ h => JValue.noConfusion h)⟩
